import Mathlib

/-!
Verification of the `dropbox-appender` command-line tool.

This file shallowly embeds the pure computational content of the Go
sources (`main.go`, `dropbox.go`, `auth.go`, `config.go`) and proves the
specification's claims about them.  Network and file I/O are modelled by
passing the externally observed values (an HTTP response's status code and
body, the bytes read from a file, the values of environment variables, the
outcome of the token-refresh call) as explicit arguments; everything the
Go code computes from those values is translated function-by-function.

Go's `encoding/json` is modelled by an executable escaper/parser pair
(`escapeString`, `parseObject`) restricted to the shapes the program
uses: flat objects whose interesting members are strings.  The escaper
follows Go's encoder exactly (backslash escapes for quote/backslash and
`\n` `\r` `\t`, `\u00XX` for other control characters and for the
HTML-escaped `<` `>` `&`, ` `/` ` for the two line separators);
the parser accepts general whitespace, escape sequences including
`\uXXXX`, skips non-string member values, and fails (`none`) exactly on
syntactically malformed input, mirroring the fact that `json.Unmarshal`
syntax-checks the whole input before populating any field.
-/

namespace DropboxAppender

/-! ## Characters, digits and Go string helpers -/

/-- The `{` character (written via its code point to keep it out of
string literals). -/
def lbrace : Char := Char.ofNat 123

/-- The `}` character. -/
def rbrace : Char := Char.ofNat 125

/-- The decimal digit character for `n < 10`. -/
def digitChar (n : Nat) : Char := Char.ofNat (48 + n)

/-- Go's lowercase hexadecimal digit characters (`0-9`, `a-f`). -/
def hexDigit (n : Nat) : Char :=
  if n < 10 then Char.ofNat (48 + n) else Char.ofNat (87 + n)

/-- Zero-padded two-digit decimal rendering; this is what Go's
`time.Time.Format` produces for the layouts `01`, `02`, `15`, `04`, `05`
(the components of a normalized `time.Time` are below 100). -/
def pad2 (n : Nat) : String := String.mk [digitChar (n / 10), digitChar (n % 10)]

/-- Zero-padded four-digit decimal rendering; this is what Go's
`time.Time.Format` produces for the layout `2006` on years 1..9999. -/
def pad4 (n : Nat) : String :=
  String.mk [digitChar (n / 1000 % 10), digitChar (n / 100 % 10),
             digitChar (n / 10 % 10), digitChar (n % 10)]

/-- Drop the expected leading characters `pat` from `l`; `none` when `l`
does not start with `pat`. -/
def dropLead : List Char → List Char → Option (List Char)
  | [], r => some r
  | _ :: _, [] => none
  | p :: ps, c :: cs => if c = p then dropLead ps cs else none

/-- Whether `pat` occurs as a contiguous run inside `l`
(Go `strings.Contains` on the underlying characters). -/
def containsChars (pat : List Char) : List Char → Bool
  | [] => (dropLead pat []).isSome
  | c :: r => (dropLead pat (c :: r)).isSome || containsChars pat r

/-- Go `strings.Contains`. -/
def strContains (s pat : String) : Bool := containsChars pat.data s.data

/-- Go `unicode.IsSpace`: the White_Space code points. -/
def goIsSpace (c : Char) : Bool :=
  let n := c.toNat
  (9 ≤ n && n ≤ 13) || n = 32 || n = 133 || n = 160 || n = 5760 ||
    (8192 ≤ n && n ≤ 8202) || n = 8232 || n = 8233 || n = 8239 ||
    n = 8287 || n = 12288

/-- Go `strings.TrimSpace`. -/
def trimSpace (s : String) : String :=
  String.mk (((s.data.dropWhile goIsSpace).reverse.dropWhile goIsSpace).reverse)

/-! ## Time (`time.Time` restricted to the fields the program formats) -/

/-- The broken-down components of a Go `time.Time` as used by
`resolvePath` and `formatEntry`. -/
structure GoTime where
  year : Nat
  month : Nat
  day : Nat
  hour : Nat
  minute : Nat
  second : Nat
deriving DecidableEq

/-- The component ranges of a normalized `time.Time` (years outside
1..9999 never arise from `time.Now()` in practice and would change the
width of Go's `2006` layout). -/
def GoTime.Valid (t : GoTime) : Prop :=
  1 ≤ t.year ∧ t.year ≤ 9999 ∧ 1 ≤ t.month ∧ t.month ≤ 12 ∧
    1 ≤ t.day ∧ t.day ≤ 31 ∧ t.hour < 24 ∧ t.minute < 60 ∧ t.second < 60

instance (t : GoTime) : Decidable t.Valid := by
  unfold GoTime.Valid; infer_instance

/-! ## main.go: resolvePath, formatEntry, readInput, appendContent -/

/-- `resolvePath` (main.go): the Dropbox path for today's journal file,
`fmt.Sprintf("/Notes/Journal/%s/%s/Note%s.md", Format "2006",
Format "01", Format "20060102")`. -/
def resolvePath (now : GoTime) : String :=
  "/Notes/Journal/" ++ pad4 now.year ++ "/" ++ pad2 now.month ++ "/Note" ++
    (pad4 now.year ++ pad2 now.month ++ pad2 now.day) ++ ".md"

/-- `formatEntry` (main.go): the input text, optionally with a
`### HH:MM:SS` header (Go layout `15:04:05`). -/
def formatEntry (now : GoTime) (text : String) (noTimestamp : Bool) : String :=
  if noTimestamp then text ++ "\n"
  else "### " ++ (pad2 now.hour ++ ":" ++ pad2 now.minute ++ ":" ++ pad2 now.second) ++
    "\n" ++ text ++ "\n"

/-- The message of the error `readInput` returns when no text was
supplied. -/
def noInputError : String := "no input provided: pass text as argument or via stdin"

/-- `readInput` (main.go).  `args` are the remaining CLI arguments;
`stdinIsTerminal` is whether `os.Stdin.Stat()` reports a character
device; `stdinData` is the outcome of `io.ReadAll(os.Stdin)`. -/
def readInput (args : List String) (stdinIsTerminal : Bool)
    (stdinData : Except String String) : Except String String :=
  if args.length > 0 then .ok (String.intercalate " " args)
  else if !stdinIsTerminal then
    match stdinData with
    | .error e => .error ("reading stdin: " ++ e)
    | .ok data =>
      let text := trimSpace data
      if text ≠ "" then .ok text else .error noInputError
  else .error noInputError

/-- `appendContent` (main.go): combine existing file content with the new
entry. -/
def appendContent (existing : String) (entry : String) : String :=
  if existing = "" then entry else existing ++ "\n" ++ entry

/-! ## Model of `encoding/json` -/

/-- Go's JSON string escaper (`encoding/json` with HTML escaping, the
default used by `json.Marshal`/`MarshalIndent`), one character at a
time. -/
def escChar (c : Char) : List Char :=
  if c = '"' then ['\\', '"']
  else if c = '\\' then ['\\', '\\']
  else if c = '\n' then ['\\', 'n']
  else if c = '\r' then ['\\', 'r']
  else if c = '\t' then ['\\', 't']
  else if c.toNat < 32 ∨ c = '<' ∨ c = '>' ∨ c = '&' then
    ['\\', 'u', '0', '0', hexDigit (c.toNat / 16), hexDigit (c.toNat % 16)]
  else if c.toNat = 8232 then ['\\', 'u', '2', '0', '2', '8']
  else if c.toNat = 8233 then ['\\', 'u', '2', '0', '2', '9']
  else [c]

/-- `escChar` mapped over a character list. -/
def escChars : List Char → List Char
  | [] => []
  | c :: r => escChar c ++ escChars r

/-- Go's JSON rendering of a string value, without the surrounding
quotes. -/
def escapeString (s : String) : String := String.mk (escChars s.data)

/-- Value of a hexadecimal digit character. -/
def hexVal (c : Char) : Option Nat :=
  if '0' ≤ c ∧ c ≤ '9' then some (c.toNat - 48)
  else if 'a' ≤ c ∧ c ≤ 'f' then some (c.toNat - 87)
  else if 'A' ≤ c ∧ c ≤ 'F' then some (c.toNat - 55)
  else none

/-- JSON single-character escape sequences. -/
def unescapeChar (c : Char) : Option Char :=
  if c = '"' then some '"'
  else if c = '\\' then some '\\'
  else if c = '/' then some '/'
  else if c = 'b' then some (Char.ofNat 8)
  else if c = 'f' then some (Char.ofNat 12)
  else if c = 'n' then some '\n'
  else if c = 'r' then some '\r'
  else if c = 't' then some '\t'
  else none

/-- Parse a JSON string literal (the opening quote already consumed):
returns the decoded characters and the input remaining after the closing
quote. -/
def parseJString : List Char → Option (List Char × List Char)
  | [] => none
  | c :: r =>
    if c = '"' then some ([], r)
    else if c = '\\' then
      match r with
      | [] => none
      | e :: r1 =>
        if e = 'u' then
          match r1 with
          | a :: b :: x :: d :: r2 =>
            match hexVal a, hexVal b, hexVal x, hexVal d with
            | some ha, some hb, some hx, some hd =>
              (parseJString r2).map
                (fun p => (Char.ofNat (((ha * 16 + hb) * 16 + hx) * 16 + hd) :: p.1, p.2))
            | _, _, _, _ => none
          | _ => none
        else
          match unescapeChar e with
          | some u => (parseJString r1).map (fun p => (u :: p.1, p.2))
          | none => none
    else (parseJString r).map (fun p => (c :: p.1, p.2))

/-- JSON insignificant whitespace. -/
def isJsonWs (c : Char) : Bool := c = ' ' || c = '\t' || c = '\n' || c = '\r'

/-- Skip JSON whitespace. -/
def skipWs (l : List Char) : List Char := l.dropWhile isJsonWs

/-- Skip a composite JSON value (object or array), tracking bracket depth
and in-string state; returns the remainder starting at the `,` or `}`
that ends the value at depth 0. -/
def scanValue : List Char → Nat → Bool → Option (List Char)
  | [], _, _ => none
  | c :: r, depth, inStr =>
    if inStr then
      if c = '\\' then
        match r with
        | [] => none
        | _ :: r1 => scanValue r1 depth true
      else if c = '"' then scanValue r depth false
      else scanValue r depth true
    else
      if c = '"' then scanValue r depth true
      else if c = lbrace || c = '[' then scanValue r (depth + 1) false
      else if (c = rbrace || c = ']') && depth = 0 then some (c :: r)
      else if c = rbrace || c = ']' then scanValue r (depth - 1) false
      else if c = ',' && depth = 0 then some (c :: r)
      else scanValue r depth false

/-- A parsed JSON member value: a decoded string, a scalar literal
(`true`, `false`, `null`, a number) kept as raw text, or a composite
value whose contents the program never inspects. -/
inductive JVal where
  | str (s : String)
  | lit (s : String)
  | complex
deriving DecidableEq

/-- A character ending a scalar literal token. -/
def isScalarEnd (c : Char) : Bool :=
  c = ',' || c = rbrace || c = ']' || isJsonWs c

/-- Parse one JSON member value (no leading whitespace). -/
def parseValue (l : List Char) : Option (JVal × List Char) :=
  match l with
  | [] => none
  | c :: r =>
    if c = '"' then (parseJString r).map (fun p => (.str (String.mk p.1), p.2))
    else if c = lbrace || c = '[' then
      (scanValue (c :: r) 0 false).map (fun rest => (.complex, rest))
    else
      let tok := (c :: r).takeWhile (fun x => !isScalarEnd x)
      let rest := (c :: r).dropWhile (fun x => !isScalarEnd x)
      if tok.isEmpty then none else some (.lit (String.mk tok), rest)

/-- Parse the members of a JSON object, starting just after the `{` (the
object known to be non-empty); `acc` collects members most-recent first,
so a lookup on the result sees the last occurrence of a duplicated key,
as Go's decoder does.  The fuel only needs to exceed the number of
members and is instantiated with the input length. -/
def parseMembers : Nat → List Char → List (String × JVal) → Option (List (String × JVal))
  | 0, _, _ => none
  | fuel + 1, input, acc =>
    match skipWs input with
    | [] => none
    | c :: r =>
      if c = '"' then
        match parseJString r with
        | none => none
        | some (key, r1) =>
          match skipWs r1 with
          | [] => none
          | c1 :: r2 =>
            if c1 = ':' then
              match parseValue (skipWs r2) with
              | none => none
              | some (v, r3) =>
                match skipWs r3 with
                | [] => none
                | c2 :: r4 =>
                  if c2 = ',' then parseMembers fuel r4 ((String.mk key, v) :: acc)
                  else if c2 = rbrace then
                    if (skipWs r4).isEmpty then some ((String.mk key, v) :: acc) else none
                  else none
            else none
      else none

/-- Parse a whole JSON object (with nothing but whitespace around it):
the model of a successful syntax check by `json.Unmarshal` on the bodies
this program decodes.  `none` models a syntax error, after which
`json.Unmarshal` populates no field. -/
def parseObject (s : String) : Option (List (String × JVal)) :=
  match skipWs s.data with
  | [] => none
  | c :: r =>
    if c = lbrace then
      match skipWs r with
      | [] => none
      | c2 :: r2 =>
        if c2 = rbrace then (if (skipWs r2).isEmpty then some [] else none)
        else parseMembers (r.length + 1) r []
    else none

/-- The decoded string for a member, or `""` when the key is absent or
its value is not a string (a mismatched type leaves the Go struct field
untouched). -/
def getStringField (members : List (String × JVal)) (key : String) : String :=
  match members.lookup key with
  | some (.str s) => s
  | _ => ""

/-! ## dropbox.go: the storage client -/

/-- The `error_summary` field `Download` decodes from a 409 body
(`json.Unmarshal` into a one-field struct, its error ignored, so a body
that fails the syntax check leaves the field empty). -/
def parseErrorSummary (body : String) : String :=
  match parseObject body with
  | some ms => getStringField ms "error_summary"
  | none => ""

/-- `Download` (dropbox.go), as a function of the HTTP response: 409 with
a `not_found` summary is the empty document, any other 409 and any other
non-200 status are errors, 200 returns the body verbatim. -/
def Download (status : Nat) (body : String) : Except String String :=
  if status = 409 then
    if strContains (parseErrorSummary body) "not_found" then .ok ""
    else .error ("dropbox API error: " ++ parseErrorSummary body)
  else if status ≠ 200 then
    .error ("dropbox API error (status " ++ toString status ++ "): " ++ body)
  else .ok body

/-- The `Dropbox-API-Arg` header value `Upload` marshals
(`json.Marshal` of a Go map, whose keys are emitted in sorted order). -/
def uploadArgJson (path : String) : String :=
  "\x7b\"mode\":\"overwrite\",\"mute\":true,\"path\":\"" ++ escapeString path ++ "\"\x7d"

/-- The HTTP request `Upload` (dropbox.go) builds. -/
structure UploadRequest where
  url : String
  authorization : String
  apiArg : String
  contentType : String
  body : String
deriving DecidableEq

/-- The request side of `Upload` (dropbox.go). -/
def uploadRequest (baseURL token path content : String) : UploadRequest :=
  { url := baseURL ++ "/2/files/upload"
    authorization := "Bearer " ++ token
    apiArg := uploadArgJson path
    contentType := "application/octet-stream"
    body := content }

/-- The response side of `Upload` (dropbox.go): any non-200 status is an
error carrying status and body. -/
def Upload (status : Nat) (respBody : String) : Except String Unit :=
  if status ≠ 200 then
    .error ("dropbox API error (status " ++ toString status ++ "): " ++ respBody)
  else .ok ()

/-! ## config.go: Config, loadConfig, saveConfig -/

/-- `Config` (config.go). -/
structure Config where
  appKey : String
  appSecret : String
  refreshToken : String
deriving DecidableEq

/-- What `json.Unmarshal(data, cfg)` leaves in a zero `Config`: nothing
on a syntax error (which `loadConfig` ignores), otherwise the string
members for the three known keys, absent or non-string members leaving
their field empty. -/
def parseConfig (data : String) : Option Config :=
  (parseObject data).map fun ms =>
    { appKey := getStringField ms "app_key"
      appSecret := getStringField ms "app_secret"
      refreshToken := getStringField ms "refresh_token" }

/-- The file-sourced part of `loadConfig`: `file` is `none` when
`os.ReadFile` failed (file missing), otherwise the bytes read. -/
def fileConfig : Option String → Config
  | none => ⟨"", "", ""⟩
  | some data => (parseConfig data).getD ⟨"", "", ""⟩

/-- `loadConfig` (config.go): read the file if possible, ignore any
parse error, then apply the three environment-variable overrides
(`DROPBOX_APP_KEY`, `DROPBOX_APP_SECRET`, `DROPBOX_REFRESH_TOKEN`,
passed here as explicit values, `""` meaning unset).  Mirrors the Go
signature by returning an `Except` that is in fact always `.ok`. -/
def loadConfig (file : Option String) (envKey envSecret envRefresh : String) :
    Except String Config :=
  let cfg1 := fileConfig file
  let cfg2 := if envKey ≠ "" then { cfg1 with appKey := envKey } else cfg1
  let cfg3 := if envSecret ≠ "" then { cfg2 with appSecret := envSecret } else cfg2
  let cfg4 := if envRefresh ≠ "" then { cfg3 with refreshToken := envRefresh } else cfg3
  .ok cfg4

/-- The bytes `saveConfig` (config.go) writes:
`json.MarshalIndent(cfg, "", "  ")` of the three-field struct. -/
def saveConfigData (cfg : Config) : String :=
  "\x7b\n  \"app_key\": \"" ++ escapeString cfg.appKey ++
    "\",\n  \"app_secret\": \"" ++ escapeString cfg.appSecret ++
    "\",\n  \"refresh_token\": \"" ++ escapeString cfg.refreshToken ++ "\"\n\x7d"

/-! ## resolveToken and the append pipeline (dropbox-appender main) -/

/-- `resolveToken` (main.go of the OAuth version): `envToken` is
`os.Getenv("DROPBOX_TOKEN")` (`""` meaning unset); `refresh` is the
outcome of `refreshAccessToken` on the config's credentials. -/
def resolveToken (envToken : String) (cfg : Config)
    (refresh : Except String String) : Except String String :=
  if envToken ≠ "" then .ok envToken
  else if cfg.refreshToken ≠ "" ∧ cfg.appKey ≠ "" ∧ cfg.appSecret ≠ "" then
    match refresh with
    | .ok token => .ok token
    | .error e =>
      .error ("refresh token invalid, run: dropbox-appender auth\n  (" ++ e ++ ")")
  else .error "no authentication configured, run: dropbox-appender auth"

/-- The content a successful append run uploads (`main`): download the
existing content, then `appendContent existing (formatEntry ...)` is
passed to `Upload`. -/
def appendRunUpload (status : Nat) (respBody : String) (now : GoTime)
    (text : String) (noTimestamp : Bool) : Except String String :=
  (Download status respBody).map
    (fun existing => appendContent existing (formatEntry now text noTimestamp))

/-! ## JSON escaping round-trip lemmas -/


theorem hexVal_hexDigit : ∀ n < 16, hexVal (hexDigit n) = some n := by decide

theorem parseJString_cons_raw (c : Char) (tail : List Char)
    (h1 : ¬(c = '"')) (h2 : ¬(c = '\\')) :
    parseJString (c :: tail) = (parseJString tail).map (fun p => (c :: p.1, p.2)) := by
  rw [parseJString.eq_def]
  simp only [h1, h2, if_false, ite_false]

theorem parseJString_cons_esc (e u : Char) (tail : List Char)
    (he : ¬(e = 'u')) (hu : unescapeChar e = some u) :
    parseJString ('\\' :: e :: tail) = (parseJString tail).map (fun p => (u :: p.1, p.2)) := by
  rw [parseJString.eq_def]
  simp only [show ¬(('\\' : Char) = '"') from by decide, if_false, ite_false, if_true, ite_true,
    show (('\\' : Char) = '\\') from rfl, he, hu]

theorem parseJString_cons_u (a b x d : Char) (na nb nx nd : Nat) (tail : List Char)
    (ha : hexVal a = some na) (hb : hexVal b = some nb)
    (hx : hexVal x = some nx) (hd : hexVal d = some nd) :
    parseJString ('\\' :: 'u' :: a :: b :: x :: d :: tail) =
      (parseJString tail).map
        (fun p => (Char.ofNat (((na * 16 + nb) * 16 + nx) * 16 + nd) :: p.1, p.2)) := by
  rw [parseJString.eq_def]
  simp only [show ¬(('\\' : Char) = '"') from by decide, if_false, ite_false, if_true, ite_true,
    show (('\\' : Char) = '\\') from rfl, show (('u' : Char) = 'u') from rfl, ha, hb, hx, hd]



theorem parseJString_escChars (s : List Char) (rest : List Char) :
    parseJString (escChars s ++ '"' :: rest) = some (s, rest) := by
  induction s with
  | nil =>
    rw [escChars, List.nil_append, parseJString.eq_def]
    simp
  | cons c s ih =>
    rw [escChars, List.append_assoc]
    by_cases h1 : c = '"'
    · subst h1
      rw [show escChar '"' = ['\\', '"'] from by decide]
      rw [show (['\\', '"'] : List Char) ++ (escChars s ++ '"' :: rest) =
        '\\' :: '"' :: (escChars s ++ '"' :: rest) from rfl]
      rw [parseJString_cons_esc '"' '"' _ (by decide) (by decide), ih]
      rfl
    by_cases h2 : c = '\\'
    · subst h2
      rw [show escChar '\\' = ['\\', '\\'] from by decide]
      rw [show (['\\', '\\'] : List Char) ++ (escChars s ++ '"' :: rest) =
        '\\' :: '\\' :: (escChars s ++ '"' :: rest) from rfl]
      rw [parseJString_cons_esc '\\' '\\' _ (by decide) (by decide), ih]
      rfl
    by_cases h3 : c = '\n'
    · subst h3
      rw [show escChar '\n' = ['\\', 'n'] from by decide]
      rw [show (['\\', 'n'] : List Char) ++ (escChars s ++ '"' :: rest) =
        '\\' :: 'n' :: (escChars s ++ '"' :: rest) from rfl]
      rw [parseJString_cons_esc 'n' '\n' _ (by decide) (by decide), ih]
      rfl
    by_cases h4 : c = '\r'
    · subst h4
      rw [show escChar '\r' = ['\\', 'r'] from by decide]
      rw [show (['\\', 'r'] : List Char) ++ (escChars s ++ '"' :: rest) =
        '\\' :: 'r' :: (escChars s ++ '"' :: rest) from rfl]
      rw [parseJString_cons_esc 'r' '\r' _ (by decide) (by decide), ih]
      rfl
    by_cases h5 : c = '\t'
    · subst h5
      rw [show escChar '\t' = ['\\', 't'] from by decide]
      rw [show (['\\', 't'] : List Char) ++ (escChars s ++ '"' :: rest) =
        '\\' :: 't' :: (escChars s ++ '"' :: rest) from rfl]
      rw [parseJString_cons_esc 't' '\t' _ (by decide) (by decide), ih]
      rfl
    by_cases h6 : c.toNat < 32 ∨ c = '<' ∨ c = '>' ∨ c = '&'
    · have hc256 : c.toNat < 256 := by
        rcases h6 with h | h | h | h
        · omega
        · subst h; decide
        · subst h; decide
        · subst h; decide
      rw [show escChar c = ['\\', 'u', '0', '0', hexDigit (c.toNat / 16), hexDigit (c.toNat % 16)]
        from by rw [escChar, if_neg h1, if_neg h2, if_neg h3, if_neg h4, if_neg h5, if_pos h6]]
      rw [show (['\\', 'u', '0', '0', hexDigit (c.toNat / 16), hexDigit (c.toNat % 16)] : List Char)
          ++ (escChars s ++ '"' :: rest) =
        '\\' :: 'u' :: '0' :: '0' :: hexDigit (c.toNat / 16) :: hexDigit (c.toNat % 16) ::
          (escChars s ++ '"' :: rest) from rfl]
      rw [parseJString_cons_u '0' '0' (hexDigit (c.toNat / 16)) (hexDigit (c.toNat % 16))
        0 0 (c.toNat / 16) (c.toNat % 16) _ (by decide) (by decide)
        (hexVal_hexDigit _ (by omega)) (hexVal_hexDigit _ (by omega)), ih]
      have hv : ((0 * 16 + 0) * 16 + c.toNat / 16) * 16 + c.toNat % 16 = c.toNat := by omega
      rw [hv, Char.ofNat_toNat]
      rfl
    by_cases h7 : c.toNat = 8232
    · rw [show escChar c = ['\\', 'u', '2', '0', '2', '8'] from by
        rw [escChar, if_neg h1, if_neg h2, if_neg h3, if_neg h4, if_neg h5, if_neg h6, if_pos h7]]
      rw [show (['\\', 'u', '2', '0', '2', '8'] : List Char) ++ (escChars s ++ '"' :: rest) =
        '\\' :: 'u' :: '2' :: '0' :: '2' :: '8' :: (escChars s ++ '"' :: rest) from rfl]
      rw [parseJString_cons_u '2' '0' '2' '8' 2 0 2 8 _
        (by decide) (by decide) (by decide) (by decide), ih]
      have hv : ((2 * 16 + 0) * 16 + 2) * 16 + 8 = c.toNat := by omega
      rw [hv, Char.ofNat_toNat]
      rfl
    by_cases h8 : c.toNat = 8233
    · rw [show escChar c = ['\\', 'u', '2', '0', '2', '9'] from by
        rw [escChar, if_neg h1, if_neg h2, if_neg h3, if_neg h4, if_neg h5, if_neg h6, if_neg h7,
          if_pos h8]]
      rw [show (['\\', 'u', '2', '0', '2', '9'] : List Char) ++ (escChars s ++ '"' :: rest) =
        '\\' :: 'u' :: '2' :: '0' :: '2' :: '9' :: (escChars s ++ '"' :: rest) from rfl]
      rw [parseJString_cons_u '2' '0' '2' '9' 2 0 2 9 _
        (by decide) (by decide) (by decide) (by decide), ih]
      have hv : ((2 * 16 + 0) * 16 + 2) * 16 + 9 = c.toNat := by omega
      rw [hv, Char.ofNat_toNat]
      rfl
    · rw [show escChar c = [c] from by
        rw [escChar, if_neg h1, if_neg h2, if_neg h3, if_neg h4, if_neg h5, if_neg h6, if_neg h7,
          if_neg h8]]
      rw [show ([c] : List Char) ++ (escChars s ++ '"' :: rest) =
        c :: (escChars s ++ '"' :: rest) from rfl]
      rw [parseJString_cons_raw c _ h1 h2, ih]
      rfl



/-! ## Object-parser lemmas -/

theorem skipWs_cons_ws (c : Char) (l : List Char) (h : isJsonWs c = true) :
    skipWs (c :: l) = skipWs l := by
  simp [skipWs, List.dropWhile, h]

theorem skipWs_cons_not (c : Char) (l : List Char) (h : isJsonWs c = false) :
    skipWs (c :: l) = c :: l := by
  simp [skipWs, List.dropWhile, h]

/-- On characters the escaper leaves alone (such as the ASCII key names
this program uses), `escChars` is the identity. -/
theorem escChars_of_plain (l : List Char) (h : ∀ c ∈ l, escChar c = [c]) :
    escChars l = l := by
  induction l with
  | nil => rfl
  | cons c r ih =>
    rw [escChars, h c (List.mem_cons_self c r), ih fun x hx => h x (List.mem_cons_of_mem c hx)]
    rfl

/-- The characters of a member of an indented JSON object as this
program prints them: two-space indent, quoted plain key, colon-space,
then a quoted string value, then the rest. -/
def memberShape (key v after : List Char) : List Char :=
  '\n' :: ' ' :: ' ' :: '"' :: (key ++ '"' :: ':' :: ' ' :: '"' :: (escChars v ++ '"' :: after))

theorem parseMembers_member (n : Nat) (key v after : List Char)
    (acc : List (String × JVal)) (hkey : ∀ c ∈ key, escChar c = [c]) :
    parseMembers (n + 1) (memberShape key v after) acc =
      match skipWs after with
      | [] => none
      | c2 :: r4 =>
        if c2 = ',' then parseMembers n r4 ((String.mk key, JVal.str (String.mk v)) :: acc)
        else if c2 = rbrace then
          if (skipWs r4).isEmpty then some ((String.mk key, JVal.str (String.mk v)) :: acc)
          else none
        else none := by
  have hkeyq : parseJString (key ++ '"' :: ':' :: ' ' :: '"' :: (escChars v ++ '"' :: after)) =
      some (key, ':' :: ' ' :: '"' :: (escChars v ++ '"' :: after)) := by
    have := parseJString_escChars key (':' :: ' ' :: '"' :: (escChars v ++ '"' :: after))
    rwa [escChars_of_plain key hkey] at this
  rw [parseMembers]
  rw [memberShape]
  rw [skipWs_cons_ws _ _ (by decide), skipWs_cons_ws _ _ (by decide),
    skipWs_cons_ws _ _ (by decide), skipWs_cons_not _ _ (by decide)]
  simp only [show (('"' : Char) = '"') from rfl, if_true, ite_true, hkeyq]
  rw [skipWs_cons_not _ _ (by decide)]
  simp only [show ((':' : Char) = ':') from rfl, if_true, ite_true]
  rw [skipWs_cons_ws _ _ (by decide), skipWs_cons_not _ _ (by decide)]
  rw [parseValue]
  simp only [show (('"' : Char) = '"') from rfl, if_true, ite_true, parseJString_escChars]
  rfl


theorem data_mk (l : List Char) : (String.mk l).data = l := rfl

theorem saveConfigData_shape (cfg : Config) :
    (saveConfigData cfg).data =
      lbrace :: memberShape ("app_key".data) cfg.appKey.data
        (',' :: memberShape ("app_secret".data) cfg.appSecret.data
          (',' :: memberShape ("refresh_token".data) cfg.refreshToken.data ['\n', rbrace])) := by
  simp only [saveConfigData, String.data_append, escapeString, data_mk, memberShape]
  simp [lbrace, rbrace, List.append_assoc]


theorem parseMembers_three (m : Nat) (acc : List (String × JVal)) (cfg : Config) :
    parseMembers (m + 3)
      (memberShape ("app_key".data) cfg.appKey.data
        (',' :: memberShape ("app_secret".data) cfg.appSecret.data
          (',' :: memberShape ("refresh_token".data) cfg.refreshToken.data ['\n', rbrace]))) acc =
      some (("refresh_token", JVal.str cfg.refreshToken) ::
            ("app_secret", JVal.str cfg.appSecret) ::
            ("app_key", JVal.str cfg.appKey) :: acc) := by
  have hk1 : ∀ c ∈ ("app_key".data), escChar c = [c] := by decide
  have hk2 : ∀ c ∈ ("app_secret".data), escChar c = [c] := by decide
  have hk3 : ∀ c ∈ ("refresh_token".data), escChar c = [c] := by decide
  rw [show m + 3 = (m + 2) + 1 from rfl]
  rw [parseMembers_member (m + 2) _ _ _ acc hk1]
  rw [skipWs_cons_not _ _ (by decide)]
  simp only [show ((',' : Char) = ',') from rfl, if_true, ite_true]
  rw [show m + 2 = (m + 1) + 1 from rfl]
  rw [parseMembers_member (m + 1) _ _ _ _ hk2]
  rw [skipWs_cons_not _ _ (by decide)]
  simp only [show ((',' : Char) = ',') from rfl, if_true, ite_true]
  rw [parseMembers_member m _ _ _ _ hk3]
  rw [skipWs_cons_ws _ _ (by decide), skipWs_cons_not _ _ (by decide)]
  simp only [show ¬((rbrace : Char) = ',') from by decide, if_false, ite_false,
    show (rbrace = rbrace) from rfl, if_true, ite_true]
  simp [skipWs]


theorem parseObject_saveConfigData (cfg : Config) :
    parseObject (saveConfigData cfg) =
      some [("refresh_token", JVal.str cfg.refreshToken),
            ("app_secret", JVal.str cfg.appSecret),
            ("app_key", JVal.str cfg.appKey)] := by
  rw [parseObject.eq_def, saveConfigData_shape]
  rw [skipWs_cons_not _ _ (by decide)]
  simp only [show (lbrace = lbrace) from rfl, if_true, ite_true]
  rw [show memberShape ("app_key".data) cfg.appKey.data
      (',' :: memberShape ("app_secret".data) cfg.appSecret.data
        (',' :: memberShape ("refresh_token".data) cfg.refreshToken.data ['\n', rbrace])) =
    '\n' :: ' ' :: ' ' :: '"' :: ("app_key".data ++ '"' :: ':' :: ' ' :: '"' ::
      (escChars cfg.appKey.data ++ '"' ::
        (',' :: memberShape ("app_secret".data) cfg.appSecret.data
          (',' :: memberShape ("refresh_token".data) cfg.refreshToken.data ['\n', rbrace]))))
    from rfl]
  rw [skipWs_cons_ws _ _ (by decide), skipWs_cons_ws _ _ (by decide),
    skipWs_cons_ws _ _ (by decide), skipWs_cons_not _ _ (by decide)]
  simp only [show ¬(('"' : Char) = rbrace) from by decide, if_false, ite_false]
  have hlen : ∃ m, ('\n' :: ' ' :: ' ' :: '"' :: ("app_key".data ++ '"' :: ':' :: ' ' :: '"' ::
      (escChars cfg.appKey.data ++ '"' ::
        (',' :: memberShape ("app_secret".data) cfg.appSecret.data
          (',' :: memberShape ("refresh_token".data) cfg.refreshToken.data
            ['\n', rbrace]))))).length + 1 = m + 3 := by
    refine ⟨('\n' :: ' ' :: ' ' :: '"' :: ("app_key".data ++ '"' :: ':' :: ' ' :: '"' ::
      (escChars cfg.appKey.data ++ '"' ::
        (',' :: memberShape ("app_secret".data) cfg.appSecret.data
          (',' :: memberShape ("refresh_token".data) cfg.refreshToken.data
            ['\n', rbrace]))))).length - 2, ?_⟩
    simp
  obtain ⟨m, hm⟩ := hlen
  rw [hm]
  exact parseMembers_three m [] cfg

theorem parseConfig_saveConfigData (cfg : Config) :
    parseConfig (saveConfigData cfg) = some cfg := by
  rw [parseConfig, parseObject_saveConfigData]
  simp [getStringField, List.lookup]

/-! ## Parsing the compact upload metadata header -/

theorem parseJString_plain (key : List Char) (hkey : ∀ c ∈ key, escChar c = [c])
    (rest : List Char) : parseJString (key ++ '"' :: rest) = some (key, rest) := by
  have h := parseJString_escChars key rest
  rwa [escChars_of_plain key hkey] at h

theorem parseMembers_memberC_str (n : Nat) (key v after : List Char)
    (acc : List (String × JVal)) (hkey : ∀ c ∈ key, escChar c = [c]) :
    parseMembers (n + 1) ('"' :: (key ++ '"' :: ':' :: '"' :: (escChars v ++ '"' :: after))) acc =
      match skipWs after with
      | [] => none
      | c2 :: r4 =>
        if c2 = ',' then parseMembers n r4 ((String.mk key, JVal.str (String.mk v)) :: acc)
        else if c2 = rbrace then
          if (skipWs r4).isEmpty then some ((String.mk key, JVal.str (String.mk v)) :: acc)
          else none
        else none := by
  rw [parseMembers]
  rw [skipWs_cons_not _ _ (by decide)]
  simp only [show (('"' : Char) = '"') from rfl, if_true, ite_true,
    parseJString_plain key hkey]
  rw [skipWs_cons_not _ _ (by decide)]
  simp only [show ((':' : Char) = ':') from rfl, if_true, ite_true]
  rw [skipWs_cons_not _ _ (by decide)]
  rw [parseValue]
  simp only [show (('"' : Char) = '"') from rfl, if_true, ite_true, parseJString_escChars]
  rfl

theorem parseMembers_memberC_true (n : Nat) (key after : List Char)
    (acc : List (String × JVal)) (hkey : ∀ c ∈ key, escChar c = [c]) :
    parseMembers (n + 1)
        ('"' :: (key ++ '"' :: ':' :: 't' :: 'r' :: 'u' :: 'e' :: ',' :: after)) acc =
      parseMembers n after ((String.mk key, JVal.lit "true") :: acc) := by
  rw [parseMembers]
  rw [skipWs_cons_not _ _ (by decide)]
  simp only [show (('"' : Char) = '"') from rfl, if_true, ite_true,
    parseJString_plain key hkey]
  rw [skipWs_cons_not _ _ (by decide)]
  simp only [show ((':' : Char) = ':') from rfl, if_true, ite_true]
  rw [skipWs_cons_not _ _ (by decide)]
  rw [parseValue]
  simp [isScalarEnd, isJsonWs, List.takeWhile, List.dropWhile, lbrace, skipWs,
    show ¬(('t' : Char) = rbrace) from by decide, show ¬(('r' : Char) = rbrace) from by decide,
    show ¬(('u' : Char) = rbrace) from by decide, show ¬(('e' : Char) = rbrace) from by decide,
    show ¬((',' : Char) = rbrace) from by decide]

theorem uploadArgJson_shape (path : String) :
    (uploadArgJson path).data =
      lbrace :: '"' :: ("mode".data ++ '"' :: ':' :: '"' :: (escChars ("overwrite".data) ++ '"' ::
        (',' :: '"' :: ("mute".data ++ '"' :: ':' :: 't' :: 'r' :: 'u' :: 'e' :: ',' ::
          '"' :: ("path".data ++ '"' :: ':' :: '"' :: (escChars path.data ++ '"' ::
            [rbrace])))))) := by
  rw [show escChars ("overwrite".data) = "overwrite".data from escChars_of_plain _ (by decide)]
  simp only [uploadArgJson, String.data_append, escapeString, data_mk]
  simp [lbrace, rbrace, List.append_assoc]

theorem parseObject_uploadArgJson (path : String) :
    parseObject (uploadArgJson path) =
      some [("path", JVal.str path), ("mute", JVal.lit "true"),
            ("mode", JVal.str "overwrite")] := by
  rw [parseObject.eq_def, uploadArgJson_shape]
  rw [skipWs_cons_not _ _ (by decide)]
  simp only [show (lbrace = lbrace) from rfl, if_true, ite_true]
  rw [skipWs_cons_not _ _ (by decide)]
  simp only [show ¬(('"' : Char) = rbrace) from by decide, if_false, ite_false]
  have hlen : ∃ m, ('"' :: ("mode".data ++ '"' :: ':' :: '"' :: (escChars ("overwrite".data) ++
      '"' :: (',' :: '"' :: ("mute".data ++ '"' :: ':' :: 't' :: 'r' :: 'u' :: 'e' :: ',' ::
        '"' :: ("path".data ++ '"' :: ':' :: '"' :: (escChars path.data ++ '"' ::
          [rbrace]))))))).length + 1 = m + 3 := by
    refine ⟨('"' :: ("mode".data ++ '"' :: ':' :: '"' :: (escChars ("overwrite".data) ++
      '"' :: (',' :: '"' :: ("mute".data ++ '"' :: ':' :: 't' :: 'r' :: 'u' :: 'e' :: ',' ::
        '"' :: ("path".data ++ '"' :: ':' :: '"' :: (escChars path.data ++ '"' ::
          [rbrace]))))))).length - 2, ?_⟩
    simp
  obtain ⟨m, hm⟩ := hlen
  rw [hm]
  rw [show m + 3 = (m + 2) + 1 from rfl]
  rw [parseMembers_memberC_str (m + 2) _ _ _ _ (by decide)]
  rw [skipWs_cons_not _ _ (by decide)]
  simp only [show ((',' : Char) = ',') from rfl, if_true, ite_true]
  rw [show m + 2 = (m + 1) + 1 from rfl]
  rw [parseMembers_memberC_true (m + 1) _ _ _ (by decide)]
  rw [parseMembers_memberC_str m _ _ _ _ (by decide)]
  rw [show skipWs [rbrace] = rbrace :: [] from by decide]
  simp only [show ¬((rbrace : Char) = ',') from by decide, if_false, ite_false,
    show (rbrace = rbrace) from rfl, if_true, ite_true]
  simp [skipWs]


/-! ## Decimal rendering facts -/

/-- The spec's rendering of a time component: its decimal digits,
left-padded with `0` to two digits (stated via the standard decimal
digit expansion, independently of `pad2`'s arithmetic). -/
def specTwoDigit (n : Nat) : String :=
  if n < 10 then String.mk ('0' :: Nat.toDigits 10 n) else String.mk (Nat.toDigits 10 n)

theorem pad2_eq_specTwoDigit : ∀ n < 100, pad2 n = specTwoDigit n := by decide

theorem digitChar_range : ∀ k < 10, '0' ≤ digitChar k ∧ digitChar k ≤ '9' := by decide

theorem pad4_digits (n : Nat) : ∀ c ∈ (pad4 n).data, '0' ≤ c ∧ c ≤ '9' := by
  intro c hc
  simp only [pad4, data_mk, List.mem_cons, List.not_mem_nil, or_false] at hc
  rcases hc with h | h | h | h <;> subst h <;> exact digitChar_range _ (by omega)

theorem pad2_digits (n : Nat) (hn : n < 100) : ∀ c ∈ (pad2 n).data, '0' ≤ c ∧ c ≤ '9' := by
  intro c hc
  simp only [pad2, data_mk, List.mem_cons, List.not_mem_nil, or_false] at hc
  rcases hc with h | h <;> subst h <;> exact digitChar_range _ (by omega)

theorem string_append_assoc (a b c : String) : a ++ b ++ c = a ++ (b ++ c) := by
  apply String.ext
  simp [String.data_append, List.append_assoc]


/-! ## Claim theorems -/

/-- Claim C1: for every successful append run, the uploaded content is
the downloaded content, a single `"\n"` separator, and the newly
formatted entry when the downloaded content is non-empty, and exactly
the newly formatted entry when the downloaded content is empty
(including the file-absent case, where `Download` returned `""`). -/
theorem appendRun_content (status : Nat) (respBody : String) (t : GoTime)
    (text : String) (noTs : Bool) (uploaded : String)
    (h : appendRunUpload status respBody t text noTs = .ok uploaded) :
    ∃ existing, Download status respBody = .ok existing ∧
      (existing = "" → uploaded = formatEntry t text noTs) ∧
      (existing ≠ "" → uploaded = existing ++ "\n" ++ formatEntry t text noTs) := by
  unfold appendRunUpload at h
  cases hd : Download status respBody with
  | error e => rw [hd] at h; exact absurd h (by simp [Except.map])
  | ok existing =>
    rw [hd] at h
    simp only [Except.map, Except.ok.injEq] at h
    refine ⟨existing, rfl, ?_, ?_⟩
    · intro he; rw [← h, appendContent, if_pos he]
    · intro he; rw [← h, appendContent, if_neg he]

/-- Witness for C1: the spec's end-to-end scenario — the download
reports not-found (HTTP 409 with a `not_found` summary), the new entry
is at 09:00:00 with text `first note of the day`, and the uploaded
content is exactly `"### 09:00:00\nfirst note of the day\n"`. -/
theorem appendRun_content_witness :
    ∃ existing,
      Download 409 "\x7b\"error_summary\": \"path/not_found/..\"\x7d" = .ok existing ∧
      (existing = "" → "### 09:00:00\nfirst note of the day\n" =
        formatEntry ⟨2025, 1, 15, 9, 0, 0⟩ "first note of the day" false) ∧
      (existing ≠ "" → "### 09:00:00\nfirst note of the day\n" =
        existing ++ "\n" ++ formatEntry ⟨2025, 1, 15, 9, 0, 0⟩ "first note of the day" false) :=
  appendRun_content 409 "\x7b\"error_summary\": \"path/not_found/..\"\x7d"
    ⟨2025, 1, 15, 9, 0, 0⟩ "first note of the day" false
    "### 09:00:00\nfirst note of the day\n" (by rfl)

/-- Claim C2: `Download` returns the body verbatim on HTTP 200, the
empty string without error on an HTTP 409 whose parsed `error_summary`
contains `not_found`, an API error carrying the summary on any other
HTTP 409, and an error carrying the status code and raw body on any
other non-200 status. -/
theorem download_response_spec (status : Nat) (body : String) :
    (status = 200 → Download status body = .ok body) ∧
    (status = 409 → strContains (parseErrorSummary body) "not_found" = true →
      Download status body = .ok "") ∧
    (status = 409 → strContains (parseErrorSummary body) "not_found" = false →
      Download status body = .error ("dropbox API error: " ++ parseErrorSummary body)) ∧
    (status ≠ 200 → status ≠ 409 →
      Download status body =
        .error ("dropbox API error (status " ++ toString status ++ "): " ++ body)) := by
  refine ⟨?_, ?_, ?_, ?_⟩
  · intro h; subst h; simp [Download]
  · intro h hc; subst h; simp [Download, hc]
  · intro h hc; subst h; simp [Download, hc]
  · intro h1 h2; rw [Download, if_neg h2, if_pos h1]

/-- Witness for C2: the four response classes at concrete responses
(the test server's bodies). -/
theorem download_response_spec_witness :
    Download 200 "existing content" = .ok "existing content" ∧
    Download 409 "\x7b\"error_summary\": \"path/not_found/\"\x7d" = .ok "" ∧
    Download 409 "\x7b\"error_summary\": \"other/failure/\"\x7d" =
      .error ("dropbox API error: " ++
        parseErrorSummary "\x7b\"error_summary\": \"other/failure/\"\x7d") ∧
    Download 500 "\x7b\"error_summary\": \"internal_error\"\x7d" =
      .error ("dropbox API error (status " ++ toString 500 ++ "): " ++
        "\x7b\"error_summary\": \"internal_error\"\x7d") :=
  ⟨(download_response_spec 200 "existing content").1 rfl,
   (download_response_spec 409 "\x7b\"error_summary\": \"path/not_found/\"\x7d").2.1 rfl
     (by rfl),
   (download_response_spec 409 "\x7b\"error_summary\": \"other/failure/\"\x7d").2.2.1 rfl
     (by rfl),
   (download_response_spec 500 "\x7b\"error_summary\": \"internal_error\"\x7d").2.2.2
     (by decide) (by decide)⟩

/-- Claim C3: `resolveToken` returns the direct-token environment
variable verbatim whenever it is non-empty, regardless of the config;
otherwise, with non-empty app key, app secret and refresh token it
returns the refreshed access token, or on refresh failure an error
wrapping the cause and telling the user to re-run `dropbox-appender
auth`; otherwise an error telling the user to run the auth flow. -/
theorem resolveToken_priority (envToken : String) (cfg : Config)
    (refresh : Except String String) :
    (envToken ≠ "" → resolveToken envToken cfg refresh = .ok envToken) ∧
    (envToken = "" → cfg.appKey ≠ "" → cfg.appSecret ≠ "" → cfg.refreshToken ≠ "" →
      (∀ t, refresh = .ok t → resolveToken envToken cfg refresh = .ok t) ∧
      (∀ e, refresh = .error e → resolveToken envToken cfg refresh =
        .error ("refresh token invalid, run: dropbox-appender auth\n  (" ++ e ++ ")"))) ∧
    (envToken = "" → (cfg.appKey = "" ∨ cfg.appSecret = "" ∨ cfg.refreshToken = "") →
      resolveToken envToken cfg refresh =
        .error "no authentication configured, run: dropbox-appender auth") := by
  refine ⟨?_, ?_, ?_⟩
  · intro h; rw [resolveToken.eq_def, if_pos h]
  · intro h hk hs hr
    constructor
    · intro tok htok
      rw [resolveToken.eq_def, if_neg (by simp [h]), if_pos ⟨hr, hk, hs⟩, htok]
    · intro e he
      rw [resolveToken.eq_def, if_neg (by simp [h]), if_pos ⟨hr, hk, hs⟩, he]
  · intro h hor
    rw [resolveToken.eq_def, if_neg (by simp [h]),
      if_neg (by rcases hor with h' | h' | h' <;> simp [h'])]

/-- Witness for C3: the priority chain at concrete inputs — the direct
token wins even with full refresh credentials, a successful refresh
yields the fresh token, a failed refresh yields the re-auth error
wrapping the cause, and an unconfigured state yields the auth guidance
error. -/
theorem resolveToken_priority_witness :
    resolveToken "direct_token" ⟨"k", "s", "r"⟩ (.ok "fresh_token") = .ok "direct_token" ∧
    resolveToken "" ⟨"k", "s", "r"⟩ (.ok "fresh_token") = .ok "fresh_token" ∧
    resolveToken "" ⟨"k", "s", "r"⟩ (.error "boom") =
      .error "refresh token invalid, run: dropbox-appender auth\n  (boom)" ∧
    resolveToken "" ⟨"", "", ""⟩ (.error "unused") =
      .error "no authentication configured, run: dropbox-appender auth" :=
  ⟨(resolveToken_priority "direct_token" ⟨"k", "s", "r"⟩ (.ok "fresh_token")).1 (by decide),
   ((resolveToken_priority "" ⟨"k", "s", "r"⟩ (.ok "fresh_token")).2.1 rfl
      (by decide) (by decide) (by decide)).1 "fresh_token" rfl,
   ((resolveToken_priority "" ⟨"k", "s", "r"⟩ (.error "boom")).2.1 rfl
      (by decide) (by decide) (by decide)).2 "boom" rfl,
   (resolveToken_priority "" ⟨"", "", ""⟩ (.error "unused")).2.2 rfl (Or.inl rfl)⟩


/-- Claim C4: `loadConfig` never returns an error; a missing or
unparsable file leaves the file-sourced base at the zero `Config`, and
each of the three environment variables, when non-empty, overwrites only
its own field, leaving the others at their file-sourced values. -/
theorem loadConfig_spec (file : Option String) (envKey envSecret envRefresh : String) :
    ∃ c, loadConfig file envKey envSecret envRefresh = .ok c ∧
      c.appKey = (if envKey = "" then (fileConfig file).appKey else envKey) ∧
      c.appSecret = (if envSecret = "" then (fileConfig file).appSecret else envSecret) ∧
      c.refreshToken =
        (if envRefresh = "" then (fileConfig file).refreshToken else envRefresh) ∧
      (file = none → fileConfig file = ⟨"", "", ""⟩) ∧
      (∀ data, file = some data → parseConfig data = none → fileConfig file = ⟨"", "", ""⟩) := by
  refine ⟨_, rfl, ?_, ?_, ?_, ?_, ?_⟩
  · by_cases hk : envKey = "" <;> by_cases hs : envSecret = "" <;>
      by_cases hr : envRefresh = "" <;> simp [loadConfig, hk, hs, hr]
  · by_cases hk : envKey = "" <;> by_cases hs : envSecret = "" <;>
      by_cases hr : envRefresh = "" <;> simp [loadConfig, hk, hs, hr]
  · by_cases hk : envKey = "" <;> by_cases hs : envSecret = "" <;>
      by_cases hr : envRefresh = "" <;> simp [loadConfig, hk, hs, hr]
  · intro h; subst h; rfl
  · intro d h hp; subst h; simp [fileConfig, hp]

/-- Witness for C4: a file that is not valid JSON together with a single
set environment variable — loading succeeds, the set variable overrides
its field, and the other fields stay at the zero values of the
unparsable file. -/
theorem loadConfig_spec_witness :
    ∃ c, loadConfig (some "not json") "env_key" "" "" = .ok c ∧
      c.appKey = (if "env_key" = "" then (fileConfig (some "not json")).appKey
        else "env_key") ∧
      c.appSecret = (if "" = "" then (fileConfig (some "not json")).appSecret else "") ∧
      c.refreshToken = (if "" = "" then (fileConfig (some "not json")).refreshToken
        else "") ∧
      (some "not json" = none → fileConfig (some "not json") = ⟨"", "", ""⟩) ∧
      (∀ data, some "not json" = some data → parseConfig data = none →
        fileConfig (some "not json") = ⟨"", "", ""⟩) :=
  loadConfig_spec (some "not json") "env_key" "" ""

/-- Claim C5: saving any `Config` with `saveConfig` and loading the
written bytes back with `loadConfig` (environment overrides unset, as in
the round-trip test) yields the same `Config`, field for field. -/
theorem config_roundTrip (cfg : Config) :
    loadConfig (some (saveConfigData cfg)) "" "" "" = .ok cfg := by
  simp [loadConfig, fileConfig, parseConfig_saveConfigData]

/-- Claim C6: `Upload` sends the exact content as the request body, with
the metadata header carrying the path (JSON-escaped), mode `overwrite`
and mute `true`; it succeeds on HTTP 200 and fails with an error
carrying status and body on any other status. -/
theorem upload_spec (baseURL token path content : String) (status : Nat)
    (respBody : String) :
    (uploadRequest baseURL token path content).body = content ∧
    (uploadRequest baseURL token path content).contentType = "application/octet-stream" ∧
    (uploadRequest baseURL token path content).authorization = "Bearer " ++ token ∧
    (uploadRequest baseURL token path content).url = baseURL ++ "/2/files/upload" ∧
    parseObject (uploadRequest baseURL token path content).apiArg =
      some [("path", JVal.str path), ("mute", JVal.lit "true"),
            ("mode", JVal.str "overwrite")] ∧
    (status = 200 → Upload status respBody = .ok ()) ∧
    (status ≠ 200 → Upload status respBody =
      .error ("dropbox API error (status " ++ toString status ++ "): " ++ respBody)) := by
  refine ⟨rfl, rfl, rfl, rfl, parseObject_uploadArgJson path, ?_, ?_⟩
  · intro h; subst h; simp [Upload]
  · intro h; rw [Upload, if_pos h]

/-- Witness for C6: the upload request for the test's path and content
carries the exact body and the `overwrite`/`mute` metadata, HTTP 200
succeeds, and HTTP 500 fails with the status and body in the error. -/
theorem upload_spec_witness :
    (uploadRequest "https://content.dropboxapi.com" "test-token"
      "/Journal/2025/01/Note20250115.md" "file content here").body = "file content here" ∧
    parseObject (uploadRequest "https://content.dropboxapi.com" "test-token"
      "/Journal/2025/01/Note20250115.md" "file content here").apiArg =
      some [("path", JVal.str "/Journal/2025/01/Note20250115.md"),
            ("mute", JVal.lit "true"), ("mode", JVal.str "overwrite")] ∧
    Upload 200 "\x7b\x7d" = .ok () ∧
    Upload 500 "\x7b\"error_summary\": \"internal\"\x7d" =
      .error ("dropbox API error (status " ++ toString 500 ++ "): " ++
        "\x7b\"error_summary\": \"internal\"\x7d") :=
  ⟨(upload_spec "https://content.dropboxapi.com" "test-token"
      "/Journal/2025/01/Note20250115.md" "file content here" 200 "\x7b\x7d").1,
   (upload_spec "https://content.dropboxapi.com" "test-token"
      "/Journal/2025/01/Note20250115.md" "file content here" 200 "\x7b\x7d").2.2.2.2.1,
   (upload_spec "https://content.dropboxapi.com" "test-token"
      "/Journal/2025/01/Note20250115.md" "file content here" 200 "\x7b\x7d").2.2.2.2.2.1 rfl,
   (upload_spec "https://content.dropboxapi.com" "test-token"
      "/Journal/2025/01/Note20250115.md" "file content here" 500
      "\x7b\"error_summary\": \"internal\"\x7d").2.2.2.2.2.2 (by decide)⟩

/-- Claim C7: `readInput` uses the positional arguments joined with
single spaces and ignores standard input entirely whenever arguments are
supplied; otherwise, with non-interactive standard input it reads it
fully, trims surrounding whitespace, and uses the result when non-empty;
interactive standard input or an all-whitespace read fail with the
"no input provided" error. -/
theorem readInput_spec (args : List String) (term1 term2 : Bool)
    (stdin1 stdin2 : Except String String) (data : String) :
    (args ≠ [] → readInput args term1 stdin1 = .ok (String.intercalate " " args) ∧
      readInput args term1 stdin1 = readInput args term2 stdin2) ∧
    (args = [] → term1 = false → stdin1 = .ok data → trimSpace data ≠ "" →
      readInput args term1 stdin1 = .ok (trimSpace data)) ∧
    (args = [] → term1 = false → stdin1 = .ok data → trimSpace data = "" →
      readInput args term1 stdin1 = .error noInputError) ∧
    (args = [] → term1 = true → readInput args term1 stdin1 = .error noInputError) := by
  refine ⟨?_, ?_, ?_, ?_⟩
  · intro h
    have hl : args.length > 0 := by
      cases args with
      | nil => exact absurd rfl h
      | cons a r => simp
    rw [readInput.eq_def, if_pos hl, readInput.eq_def, if_pos hl]
    exact ⟨rfl, rfl⟩
  · intro h1 h2 h3 h4
    subst h1; subst h2; subst h3
    simp [readInput, h4]
  · intro h1 h2 h3 h4
    subst h1; subst h2; subst h3
    simp [readInput, h4]
  · intro h1 h2
    subst h1; subst h2
    simp [readInput]

/-- Witness for C7: arguments `["hello", "world"]` beat a piped stdin
carrying other text; with no arguments, piped text is trimmed and used;
an interactive terminal with no arguments fails with the no-input
error. -/
theorem readInput_spec_witness :
    readInput ["hello", "world"] false (.ok "piped text") = .ok "hello world" ∧
    readInput ["hello", "world"] false (.ok "piped text") =
      readInput ["hello", "world"] true (.error "ignored") ∧
    readInput [] false (.ok "  piped text\n") = .ok "piped text" ∧
    readInput [] true (.ok "piped text") = .error noInputError :=
  ⟨((readInput_spec ["hello", "world"] false true (.ok "piped text")
      (.error "ignored") "").1 (by decide)).1,
   ((readInput_spec ["hello", "world"] false true (.ok "piped text")
      (.error "ignored") "").1 (by decide)).2,
   (readInput_spec [] false false (.ok "  piped text\n") (.ok "")
      "  piped text\n").2.1 rfl rfl rfl (by decide),
   (readInput_spec [] true true (.ok "piped text") (.ok "") "").2.2.2 rfl rfl⟩


/-- Claim C8: for every (valid) point in time, `resolvePath` returns a
path of the form `/Notes/Journal/{YYYY}/{MM}/Note{YYYYMMDD}.md` with a
4-digit year, zero-padded 2-digit month and 8-digit compact date; in
particular 2025-01-15 maps to `/Notes/Journal/2025/01/Note20250115.md`
and 2025-12-03 maps to `/Notes/Journal/2025/12/Note20251203.md`. -/
theorem resolvePath_spec (t : GoTime) (h : t.Valid) :
    (∃ Y M D, resolvePath t =
        "/Notes/Journal/" ++ Y ++ "/" ++ M ++ "/Note" ++ (Y ++ M ++ D) ++ ".md" ∧
      Y.length = 4 ∧ M.length = 2 ∧ D.length = 2 ∧ (Y ++ M ++ D).length = 8 ∧
      (∀ c ∈ Y.data, '0' ≤ c ∧ c ≤ '9') ∧ (∀ c ∈ M.data, '0' ≤ c ∧ c ≤ '9') ∧
      (∀ c ∈ D.data, '0' ≤ c ∧ c ≤ '9')) ∧
    resolvePath ⟨2025, 1, 15, 14, 30, 0⟩ = "/Notes/Journal/2025/01/Note20250115.md" ∧
    resolvePath ⟨2025, 12, 3, 9, 0, 0⟩ = "/Notes/Journal/2025/12/Note20251203.md" := by
  obtain ⟨-, -, -, hmo, -, hd, -, -, -⟩ := h
  refine ⟨⟨pad4 t.year, pad2 t.month, pad2 t.day, rfl, rfl, rfl, rfl, ?_,
    pad4_digits t.year, pad2_digits t.month (by omega), pad2_digits t.day (by omega)⟩,
    by decide, by decide⟩
  simp [pad4, pad2, String.length_append]

/-- Witness for C8: the shape statement applied at 2025-01-15 14:30,
a valid time. -/
theorem resolvePath_spec_witness :
    (∃ Y M D, resolvePath ⟨2025, 1, 15, 14, 30, 0⟩ =
        "/Notes/Journal/" ++ Y ++ "/" ++ M ++ "/Note" ++ (Y ++ M ++ D) ++ ".md" ∧
      Y.length = 4 ∧ M.length = 2 ∧ D.length = 2 ∧ (Y ++ M ++ D).length = 8 ∧
      (∀ c ∈ Y.data, '0' ≤ c ∧ c ≤ '9') ∧ (∀ c ∈ M.data, '0' ≤ c ∧ c ≤ '9') ∧
      (∀ c ∈ D.data, '0' ≤ c ∧ c ≤ '9')) ∧
    resolvePath ⟨2025, 1, 15, 14, 30, 0⟩ = "/Notes/Journal/2025/01/Note20250115.md" ∧
    resolvePath ⟨2025, 12, 3, 9, 0, 0⟩ = "/Notes/Journal/2025/12/Note20251203.md" :=
  resolvePath_spec ⟨2025, 1, 15, 14, 30, 0⟩ (by decide)

/-- Claim C9: `formatEntry t text true` is `text ++ "\n"`, and
`formatEntry t text false` is `"### "` followed by the `HH:MM:SS`
rendering of `t` (each component two decimal digits, zero-padded,
24-hour clock), a newline, the text, and a newline. -/
theorem formatEntry_spec (t : GoTime) (text : String)
    (hh : t.hour < 24) (hm : t.minute < 60) (hs : t.second < 60) :
    formatEntry t text true = text ++ "\n" ∧
    formatEntry t text false =
      "### " ++ specTwoDigit t.hour ++ ":" ++ specTwoDigit t.minute ++ ":" ++
        specTwoDigit t.second ++ "\n" ++ text ++ "\n" ∧
    (specTwoDigit t.hour).length = 2 ∧ (specTwoDigit t.minute).length = 2 ∧
    (specTwoDigit t.second).length = 2 ∧
    (∀ c ∈ (specTwoDigit t.hour).data, '0' ≤ c ∧ c ≤ '9') ∧
    (∀ c ∈ (specTwoDigit t.minute).data, '0' ≤ c ∧ c ≤ '9') ∧
    (∀ c ∈ (specTwoDigit t.second).data, '0' ≤ c ∧ c ≤ '9') := by
  have e1 : pad2 t.hour = specTwoDigit t.hour := pad2_eq_specTwoDigit _ (by omega)
  have e2 : pad2 t.minute = specTwoDigit t.minute := pad2_eq_specTwoDigit _ (by omega)
  have e3 : pad2 t.second = specTwoDigit t.second := pad2_eq_specTwoDigit _ (by omega)
  refine ⟨rfl, ?_, ?_, ?_, ?_, ?_, ?_, ?_⟩
  · simp only [formatEntry, Bool.false_eq_true, if_false, ite_false]
    rw [e1, e2, e3]
    apply String.ext
    simp [String.data_append, List.append_assoc]
  · rw [← e1]; rfl
  · rw [← e2]; rfl
  · rw [← e3]; rfl
  · rw [← e1]; exact pad2_digits _ (by omega)
  · rw [← e2]; exact pad2_digits _ (by omega)
  · rw [← e3]; exact pad2_digits _ (by omega)

/-- Witness for C9: the spec's example at 14:30:45 — with the timestamp
header the entry is `"### 14:30:45\nX\n"`, without it `"X\n"`. -/
theorem formatEntry_spec_witness :
    formatEntry ⟨2025, 1, 15, 14, 30, 45⟩ "X" true = "X\n" ∧
    formatEntry ⟨2025, 1, 15, 14, 30, 45⟩ "X" false = "### 14:30:45\nX\n" := by
  have h := formatEntry_spec ⟨2025, 1, 15, 14, 30, 45⟩ "X"
    (by decide) (by decide) (by decide)
  refine ⟨h.1, ?_⟩
  rw [h.2.1]
  decide

/-- Claim C10: the formatted entry always ends in `"\n"`, the combined
content ends with the entry it was given, and hence every document a
successful run uploads ends in `"\n"` — the combiner's assumption about
existing content is maintained by the tool's own writes. -/
theorem uploaded_endsWith_newline (t : GoTime) (text : String) (noTs : Bool)
    (existing : String) :
    (∃ p, formatEntry t text noTs = p ++ "\n") ∧
    (∃ q, appendContent existing (formatEntry t text noTs) =
      q ++ formatEntry t text noTs) ∧
    (∃ r, appendContent existing (formatEntry t text noTs) = r ++ "\n") := by
  have h1 : ∃ p, formatEntry t text noTs = p ++ "\n" := by
    cases noTs with
    | true => exact ⟨text, rfl⟩
    | false =>
      exact ⟨"### " ++ (pad2 t.hour ++ ":" ++ pad2 t.minute ++ ":" ++ pad2 t.second) ++
        "\n" ++ text, rfl⟩
  have h2 : ∃ q, appendContent existing (formatEntry t text noTs) =
      q ++ formatEntry t text noTs := by
    by_cases he : existing = ""
    · exact ⟨"", by rw [appendContent, if_pos he]; rfl⟩
    · exact ⟨existing ++ "\n", by rw [appendContent, if_neg he]⟩
  obtain ⟨p, hp⟩ := h1
  obtain ⟨q, hq⟩ := h2
  refine ⟨⟨p, hp⟩, ⟨q, hq⟩, ⟨q ++ p, ?_⟩⟩
  rw [hq, hp, string_append_assoc]

end DropboxAppender
